import Mathlib

/-!
Shallow embedding of the capture-and-filter pipeline of
`playwright-min-network-mcp` (src/monitor.ts, src/index.ts, src/types.ts).

JavaScript strings are modelled as `List Char` (`JStr`); JS `Map` as an
association list with JS `Map` iteration/replacement semantics; the CDP
message callback of `startNetworkMonitoring` as a step function
`handleMessage` over an explicit `MonState`; the regex engine
(`new RegExp(p).test(u)`) as an abstract compile oracle
`rx : JStr → Option (JStr → Bool)` where `none` models a pattern whose
compilation throws (the catch block makes such a pattern contribute no
match).  `randomUUID()` is modelled by a fresh-uuid counter in the state.
-/

/-- JavaScript string, modelled as its character sequence. -/
abbrev JStr := List Char

/-- Embed a Lean string literal as a `JStr`. -/
def jstr (s : String) : JStr := s.data

/-- `isPrefixB sub l` : Boolean prefix test on character lists. -/
def isPrefixB : JStr → JStr → Bool
  | [], _ => true
  | _ :: _, [] => false
  | a :: as, b :: bs => a == b && isPrefixB as bs

/-- Boolean infix (substring) test: JS `String.prototype.includes`. -/
def isInfixB (sub : JStr) : JStr → Bool
  | [] => isPrefixB sub []
  | c :: cs => isPrefixB sub (c :: cs) || isInfixB sub cs

/-- JS `s.includes(sub)` (substring containment, not equality). -/
def jsIncludes (s sub : JStr) : Bool := isInfixB sub s

/-- JS truthiness of a `string | undefined` value: `undefined` and the
empty string are falsy. -/
def jsTruthyStr : Option JStr → Bool
  | none => false
  | some s => !s.isEmpty

/-- The `string[] | 'all'` union used by `FilterConfig` (types.ts). -/
inductive StrOrAll where
  | all : StrOrAll
  | arr : List JStr → StrOrAll
deriving DecidableEq

/-- `FilterConfig` from src/types.ts:
`{contentTypes: string[] | 'all'; urlIncludePatterns: string[] | 'all'; methods?: string[]}`. -/
structure FilterConfig where
  contentTypes : StrOrAll
  urlIncludePatterns : StrOrAll
  methods : Option (List JStr)
deriving DecidableEq

/-- Header map (`Record<string, string>`). -/
abbrev Headers := List (JStr × JStr)

/-- The `response` sub-object of `NetworkRequest` (src/types.ts). -/
structure NetworkResponse where
  status : Nat
  headers : Headers
  mimeType : Option JStr
  body : Option JStr
deriving DecidableEq

/-- `NetworkRequest` from src/types.ts (the constant `type: 'request'`
field is omitted; `uuid` is drawn from the fresh-uuid counter). -/
structure NetworkRequest where
  id : JStr
  uuid : Nat
  url : JStr
  method : JStr
  headers : Headers
  timestamp : Nat
  body : Option JStr
  response : Option NetworkResponse
  responseTimestamp : Option Nat
deriving DecidableEq

/-- `shouldIncludeRequest` from src/monitor.ts (late, content-type stage):
`'all'` accepts everything; an empty array rejects everything; otherwise
the JS guard `Array.isArray(filter.contentTypes) && contentType` requires a
truthy (non-empty) `contentType` and then substring-matches it against the
configured content types; in all remaining cases the function returns
`false`. -/
def shouldIncludeRequest (contentType : Option JStr) (filter : FilterConfig) : Bool :=
  match filter.contentTypes with
  | .all => true
  | .arr cts =>
    if cts.isEmpty then false
    else if jsTruthyStr contentType then
      cts.any (fun ct => jsIncludes (contentType.getD []) ct)
    else false

/-- `shouldIncludeRequestByUrlAndMethod` from src/monitor.ts (early, URL and
method stage).  `rx` is the regex-compile oracle: `rx p = none` models
`new RegExp(p)` throwing, in which case the catch block logs and the
pattern contributes no match. -/
def shouldIncludeRequestByUrlAndMethod (rx : JStr → Option (JStr → Bool))
    (url method : JStr) (filter : FilterConfig) : Bool :=
  let urlOk :=
    match filter.urlIncludePatterns with
    | .all => true
    | .arr pats => pats.any (fun p => match rx p with
        | some test => test url
        | none => false)
  if !urlOk then false
  else
    match filter.methods with
    | some ms => if !ms.isEmpty then ms.contains method else true
    | none => true

/-- Replace the first element satisfying `p` by its image under `f`
(JS: mutate the object returned by `Array.prototype.find` in place). -/
def updateFirst {α : Type} (p : α → Bool) (f : α → α) : List α → List α
  | [] => []
  | x :: xs => if p x then f x :: xs else x :: updateFirst p f xs

/-- Remove the first element satisfying `p`
(JS: `splice(findIndex(p), 1)`). -/
def eraseFirst {α : Type} (p : α → Bool) : List α → List α
  | [] => []
  | x :: xs => if p x then xs else x :: eraseFirst p xs

/-- JS `Map.prototype.get` on an insertion-ordered association list. -/
def mapGet (m : List (JStr × NetworkRequest)) (k : JStr) : Option NetworkRequest :=
  match m.find? (fun kv => kv.1 == k) with
  | some kv => some kv.2
  | none => none

/-- JS `Map.prototype.set`: overwrite in place if the key exists,
otherwise append. -/
def mapSet (m : List (JStr × NetworkRequest)) (k : JStr) (v : NetworkRequest) :
    List (JStr × NetworkRequest) :=
  match m with
  | [] => [(k, v)]
  | kv :: rest => if kv.1 == k then (k, v) :: rest else kv :: mapSet rest k v

/-- JS `Map.prototype.delete`. -/
def mapDelete (m : List (JStr × NetworkRequest)) (k : JStr) : List (JStr × NetworkRequest) :=
  eraseFirst (fun kv => kv.1 == k) m

/-- `buffer.push(r); if (buffer.length > maxBufferSize) buffer.shift();`
(src/monitor.ts, the FIFO control used at both insertion sites). -/
def pushFIFO (maxBufferSize : Nat) (buffer : List NetworkRequest) (r : NetworkRequest) :
    List NetworkRequest :=
  let b := buffer ++ [r]
  if maxBufferSize < b.length then b.tail else b

/-- The predicate of `buffer.slice().reverse().find((req) => req.response
&& !req.response.body)`: a record with a response whose body is falsy
(absent or empty). -/
def needsBody (r : NetworkRequest) : Bool :=
  match r.response with
  | none => false
  | some resp => !jsTruthyStr resp.body

/-- `recentRequest.response.body = message.result.body`. -/
def setRespBody (b : JStr) (r : NetworkRequest) : NetworkRequest :=
  { r with response := r.response.map (fun resp => { resp with body := some b }) }

/-- The `Network.getResponseBody` result handler of src/monitor.ts: attach
the body to the last (most recently inserted) buffer record that has a
response but no truthy body yet; if there is none, leave the buffer
unchanged. -/
def attachResponseBody (buffer : List NetworkRequest) (b : JStr) : List NetworkRequest :=
  (updateFirst needsBody (setRespBody b) buffer.reverse).reverse

/-- The CDP messages the callback of `startNetworkMonitoring`
distinguishes.  `cmdResponse` is a message with `id === 1`; `bodyResult` a
message whose `result.body` is defined (a `Network.getResponseBody`
reply); `malformed` a message on which `JSON.parse` (or the destructuring
of `params`) throws and the catch block swallows the error. -/
inductive NetEvent where
  | cmdResponse (hasError : Bool)
  | requestWillBeSent (requestId url method : JStr) (headers : Headers)
      (postData : Option JStr) (timestamp : Nat)
  | responseReceived (requestId : JStr) (status : Nat) (headers : Headers)
      (mimeType : Option JStr) (timestamp : Nat)
  | bodyResult (body : JStr)
  | malformed
deriving DecidableEq

/-- State owned by one monitoring session: the optional pending-requests
map (`pendingRequests?: Map<string, NetworkRequest>`; `none` is the
fallback mode in which `startNetworkMonitoring` was called without a map,
as src/index.ts does), the buffer, and the fresh-uuid counter modelling
`randomUUID()`. -/
structure MonState where
  pending : Option (List (JStr × NetworkRequest))
  buffer : List NetworkRequest
  nextUuid : Nat
deriving DecidableEq

/-- The `message` event callback installed by `startNetworkMonitoring`
(src/monitor.ts), translated case by case.  Outbound `ws.send` commands
(`Network.enable` acknowledgement, `Network.getResponseBody` requests) do
not touch the session state and are not modelled. -/
def handleMessage (rx : JStr → Option (JStr → Bool)) (filter : FilterConfig)
    (maxBufferSize : Nat) (s : MonState) (e : NetEvent) : MonState :=
  match e with
  | .malformed => s
  | .cmdResponse _ => s
  | .requestWillBeSent rid url method hdrs postData ts =>
    if !shouldIncludeRequestByUrlAndMethod rx url method filter then s
    else
      let networkRequest : NetworkRequest :=
        { id := rid, uuid := s.nextUuid, url := url, method := method, headers := hdrs,
          timestamp := ts, body := postData, response := none, responseTimestamp := none }
      match s.pending with
      | some p =>
        { s with pending := some (mapSet p rid networkRequest), nextUuid := s.nextUuid + 1 }
      | none =>
        { s with buffer := pushFIFO maxBufferSize s.buffer networkRequest,
                 nextUuid := s.nextUuid + 1 }
  | .responseReceived rid status hdrs mimeType ts =>
    match s.pending with
    | some p =>
      match mapGet p rid with
      | none => s
      | some req =>
        let merged : NetworkRequest :=
          { req with
            response := some { status := status, headers := hdrs, mimeType := mimeType,
                               body := none },
            responseTimestamp := some ts }
        let buf' := if shouldIncludeRequest mimeType filter
                    then pushFIFO maxBufferSize s.buffer merged else s.buffer
        { s with pending := some (mapDelete p rid), buffer := buf' }
    | none =>
      match s.buffer.find? (fun r => r.id == rid) with
      | none => s
      | some _ =>
        let merge := fun (r : NetworkRequest) =>
          { r with
            response := some { status := status, headers := hdrs, mimeType := mimeType,
                               body := none },
            responseTimestamp := some ts }
        let buf1 := updateFirst (fun r => r.id == rid) merge s.buffer
        let buf2 := if shouldIncludeRequest mimeType filter then buf1
                    else eraseFirst (fun r => r.id == rid) buf1
        { s with buffer := buf2 }
  | .bodyResult b => { s with buffer := attachResponseBody s.buffer b }

/-- The session state right after `startNetworkMonitoring` sets up the
callback with a fresh, empty pending map and the (initially empty)
`networkBuffer`. -/
def monInit : MonState := { pending := some [], buffer := [], nextUuid := 0 }

/-- Process a sequence of CDP messages. -/
def runEvents (rx : JStr → Option (JStr → Bool)) (filter : FilterConfig)
    (maxBufferSize : Nat) (s : MonState) (es : List NetEvent) : MonState :=
  es.foldl (handleMessage rx filter maxBufferSize) s

/-- The records the step on event `e` inserts (pushes) into the buffer:
one per promotion in pending mode, one per early-accepted request in
fallback mode, none otherwise. -/
def promotedBy (rx : JStr → Option (JStr → Bool)) (filter : FilterConfig)
    (s : MonState) (e : NetEvent) : List NetworkRequest :=
  match e with
  | .requestWillBeSent rid url method hdrs postData ts =>
    if !shouldIncludeRequestByUrlAndMethod rx url method filter then []
    else
      match s.pending with
      | some _ => []
      | none =>
        [{ id := rid, uuid := s.nextUuid, url := url, method := method, headers := hdrs,
           timestamp := ts, body := postData, response := none, responseTimestamp := none }]
  | .responseReceived rid status hdrs mimeType ts =>
    match s.pending with
    | some p =>
      match mapGet p rid with
      | none => []
      | some req =>
        if shouldIncludeRequest mimeType filter then
          [{ req with
             response := some { status := status, headers := hdrs, mimeType := mimeType,
                                body := none },
             responseTimestamp := some ts }]
        else []
    | none => []
  | _ => []

/-- All records inserted into the buffer over a run, in insertion order. -/
def runPromoted (rx : JStr → Option (JStr → Bool)) (filter : FilterConfig)
    (maxBufferSize : Nat) (s : MonState) : List NetEvent → List NetworkRequest
  | [] => []
  | e :: es =>
    promotedBy rx filter s e
      ++ runPromoted rx filter maxBufferSize (handleMessage rx filter maxBufferSize s e) es

/-- Erase the response body of a record: the projection under which a
buffer record is identified with the record as it was inserted (body
attachment being the only later update). -/
def stripBody (r : NetworkRequest) : NetworkRequest :=
  { r with response := r.response.map (fun resp => { resp with body := none }) }

/-- The last `n` elements of a list, in order. -/
def lastN {α : Type} (n : Nat) (l : List α) : List α := l.drop (l.length - n)

/-- `MAX_BODY_SIZE = 50 * 1024` (src/index.ts, `getRequestDetail`). -/
def MAX_BODY_SIZE : Nat := 50 * 1024

/-- The string appended on truncation:
```\n... [truncated from ${originalSize} bytes]``` . -/
def truncMarker (n : Nat) : JStr :=
  jstr "\n... [truncated from " ++ Nat.toDigits 10 n ++ jstr " bytes]"

/-- Body capping of `getRequestDetail`: the guard
`body && body.length > MAX_BODY_SIZE` fires on a truthy body longer
than the cap, replacing it with its first `MAX_BODY_SIZE` characters
followed by the truncation marker. -/
def truncOptBody : Option JStr → Option JStr
  | none => none
  | some s =>
    if jsTruthyStr (some s) && MAX_BODY_SIZE < s.length then
      some (s.take MAX_BODY_SIZE ++ truncMarker s.length)
    else some s

/-- The response part of the object `getRequestDetail` returns (headers
optionally stripped to `undefined`, body capped). -/
structure DetailResponse where
  status : Nat
  headers : Option Headers
  mimeType : Option JStr
  body : Option JStr
deriving DecidableEq

/-- The object `getRequestDetail` serializes back to the caller. -/
structure RequestDetail where
  id : JStr
  uuid : Nat
  url : JStr
  method : JStr
  headers : Option Headers
  timestamp : Nat
  body : Option JStr
  response : Option DetailResponse
  responseTimestamp : Option Nat
deriving DecidableEq

/-- The write-through that `getRequestDetail` performs on the stored
record when `include_headers` is true: `requestCopy = {...request}` makes
`requestCopy.response` an alias of the buffered record's `response`
object, which is re-copied only in the `!include_headers` branch, so the
response-body truncation assignment mutates the stored response. -/
def mutateAliasedResponse (r : NetworkRequest) : NetworkRequest :=
  { r with response := r.response.map (fun resp => { resp with body := truncOptBody resp.body }) }

/-- `getRequestDetail` from src/index.ts, as a function of the buffer:
returns the (possibly mutated, see `mutateAliasedResponse`) buffer
together with the projected record, or `none` when no buffered record has
the requested uuid (the "Request not found" result). -/
def getRequestDetail (buffer : List NetworkRequest) (uuid : Nat) (includeHeaders : Bool) :
    List NetworkRequest × Option RequestDetail :=
  match buffer.find? (fun r => r.uuid == uuid) with
  | none => (buffer, none)
  | some r =>
    let out : RequestDetail :=
      { id := r.id, uuid := r.uuid, url := r.url, method := r.method,
        headers := if includeHeaders then some r.headers else none,
        timestamp := r.timestamp,
        body := truncOptBody r.body,
        response := r.response.map (fun resp =>
          { status := resp.status,
            headers := if includeHeaders then some resp.headers else none,
            mimeType := resp.mimeType,
            body := truncOptBody resp.body }),
        responseTimestamp := r.responseTimestamp }
    let buffer' := if includeHeaders
                   then updateFirst (fun x => x.uuid == uuid) mutateAliasedResponse buffer
                   else buffer
    (buffer', some out)

/-- The default of the `content_types` filter field (src/types.ts and the
zod schema inside `updateFilter`). -/
def defaultContentTypes : StrOrAll :=
  .arr [jstr "application/json", jstr "application/x-www-form-urlencoded",
        jstr "multipart/form-data", jstr "text/plain"]

/-- The unparsed `filter` argument object: each field optional, defaults
applied by the zod schema. -/
structure FilterArgs where
  content_types : Option StrOrAll
  url_include_patterns : Option StrOrAll
  methods : Option (List JStr)
deriving DecidableEq

/-- Apply the zod defaults of the `filter` object (`content_types`
defaults to the four API/form types, `url_include_patterns` to `'all'`,
`methods` stays optional). -/
def parseFilterArgs (a : FilterArgs) : FilterConfig :=
  { contentTypes := a.content_types.getD defaultContentTypes,
    urlIncludePatterns := a.url_include_patterns.getD .all,
    methods := a.methods }

/-- The slice of `NetworkMonitorMCP` server state that `updateFilter`
reads and writes. -/
structure ServerState where
  isMonitoring : Bool
  hasWebSocket : Bool
  networkBuffer : List NetworkRequest
  cdpWebSocketUrl : Option JStr
  cdpPort : Nat
deriving DecidableEq

/-- The `MonitorStatus` result object (src/types.ts) as built by
`updateFilter` and `startMonitor`. -/
structure MonitorStatusR where
  status : JStr
  buffer_size : Nat
  filter : FilterConfig
  cdp_endpoint : Option JStr
  cdp_port : Nat
deriving DecidableEq

/-- The keys of the serialized `MonitorStatus` object: exactly the fields
`updateFilter` assigns before `JSON.stringify`. -/
def monitorStatusKeys : List String :=
  ["status", "buffer_size", "filter", "cdp_endpoint", "cdp_port"]

/-- `updateFilter` from src/index.ts: throws when not monitoring (before
any mutation), otherwise clears `networkBuffer`, reconnects with the
parsed filter, and returns a `MonitorStatus` with status `'updated'` and
the hard-coded buffer size 20. -/
def updateFilter (st : ServerState) (args : FilterArgs) :
    ServerState × Except JStr MonitorStatusR :=
  if !(st.isMonitoring && st.hasWebSocket) then
    (st, .error (jstr "Network monitoring is not active. Use start_monitor first."))
  else
    let f := parseFilterArgs args
    ({ st with networkBuffer := [] },
     .ok { status := jstr "updated", buffer_size := 20, filter := f,
           cdp_endpoint := st.cdpWebSocketUrl, cdp_port := st.cdpPort })

/-- The unparsed `start_monitor` arguments. -/
structure StartMonitorArgs where
  max_buffer_size : Option Nat
  cdp_port : Option Nat
  filter : Option FilterArgs
deriving DecidableEq

/-- The options produced by `StartMonitorSchema.parse`. -/
structure StartMonitorOptions where
  max_buffer_size : Nat
  cdp_port : Nat
  filter : FilterConfig
deriving DecidableEq

/-- `StartMonitorSchema` (src/types.ts):
`max_buffer_size: z.number().max(50).optional().default(30)`,
`cdp_port` defaults to 9222, `filter` defaults to the four content types
with `url_include_patterns: 'all'`. -/
def parseStartMonitor (a : StartMonitorArgs) : Except JStr StartMonitorOptions :=
  match a.max_buffer_size with
  | some n =>
    if 50 < n then .error (jstr "Number must be less than or equal to 50")
    else .ok { max_buffer_size := n, cdp_port := a.cdp_port.getD 9222,
               filter := parseFilterArgs (a.filter.getD ⟨none, none, none⟩) }
  | none =>
    .ok { max_buffer_size := 30, cdp_port := a.cdp_port.getD 9222,
          filter := parseFilterArgs (a.filter.getD ⟨none, none, none⟩) }

/-- A 70000-character response body, the spec's truncation scenario. -/
def bigBody : JStr := List.replicate 70000 'a'

/-- A buffered record carrying `bigBody` as its response body. -/
def bigRec : NetworkRequest :=
  { id := jstr "r1", uuid := 7, url := jstr "https://api.example.com/data",
    method := jstr "GET", headers := [], timestamp := 1, body := none,
    response := some { status := 200, headers := [], mimeType := some (jstr "application/json"),
                       body := some bigBody },
    responseTimestamp := some 2 }

/-- Modelled from the spec's words for `passesLate` (refinement
comparison only): "ALL" accepts unconditionally, an empty set rejects
unconditionally, otherwise accept iff `mimeType` is present and contains
at least one configured content-type string as a substring. -/
def passesLateSpec (mimeType : Option JStr) (cts : StrOrAll) : Bool :=
  match cts with
  | .all => true
  | .arr l =>
    if l.isEmpty then false
    else match mimeType with
      | none => false
      | some m => l.any (fun ct => jsIncludes m ct)

/-- The amended late predicate: as `passesLateSpec`, except that an empty
`mimeType` string is treated like an absent one (rejected). -/
def passesLateAmended (mimeType : Option JStr) (cts : StrOrAll) : Bool :=
  match cts with
  | .all => true
  | .arr l =>
    if l.isEmpty then false
    else match mimeType with
      | none => false
      | some m => if m.isEmpty then false else l.any (fun ct => jsIncludes m ct)

/-- Modelled from the spec's words for the truncation marker (refinement
comparison only): the literal `"...[truncated from <N> bytes]"`. -/
def specMarker (n : Nat) : JStr :=
  jstr "...[truncated from " ++ Nat.toDigits 10 n ++ jstr " bytes]"

/-- A filter accepting only JSON responses, everything else defaulted. -/
def cfgJson : FilterConfig := ⟨.arr [jstr "application/json"], .all, none⟩

/-- A regex oracle on which every pattern fails to compile. -/
def rxNone : JStr → Option (JStr → Bool) := fun _ => none

/-- A concrete stored request without a response yet. -/
def recW : NetworkRequest :=
  { id := jstr "a", uuid := 0, url := jstr "https://x.com/a", method := jstr "GET",
    headers := [], timestamp := 1, body := none, response := none, responseTimestamp := none }

/-- A concrete session state with `recW` pending under correlation id "a". -/
def sW : MonState :=
  { pending := some [(jstr "a", recW)], buffer := [], nextUuid := 1 }

/-- A concrete buffered record with a response and no response body. -/
def recDone : NetworkRequest :=
  { recW with
    uuid := 2,
    response := some { status := 200, headers := [], mimeType := some (jstr "application/json"),
                       body := some (jstr "done") } }

/-- Like `recDone` but still waiting for its response body. -/
def recWaiting : NetworkRequest :=
  { recW with
    uuid := 3,
    response := some { status := 200, headers := [], mimeType := some (jstr "application/json"),
                       body := none } }

theorem lastN_nil {α : Type} (n : Nat) : lastN n ([] : List α) = [] := by
  simp [lastN]

theorem length_lastN {α : Type} (n : Nat) (l : List α) : (lastN n l).length ≤ n := by
  simp only [lastN, List.length_drop]
  omega

theorem pushFIFO_lastN (mx : Nat) (L : List NetworkRequest) (x : NetworkRequest) :
    pushFIFO mx (lastN mx L) x = lastN mx (L ++ [x]) := by
  show (if mx < (lastN mx L ++ [x]).length then (lastN mx L ++ [x]).tail
        else lastN mx L ++ [x]) = lastN mx (L ++ [x])
  have hlen : (lastN mx L ++ [x]).length = L.length - (L.length - mx) + 1 := by
    simp [lastN]
  by_cases hc : mx < (lastN mx L ++ [x]).length
  · rw [if_pos hc]
    rw [hlen] at hc
    have hLm : mx ≤ L.length := by omega
    unfold lastN
    simp only [List.length_append, List.length_cons, List.length_nil, Nat.zero_add]
    rcases Nat.eq_zero_or_pos mx with h0 | hpos
    · subst h0
      rw [Nat.sub_zero, List.drop_length]
      simp [List.drop_eq_nil_of_le, List.length_append]
    · have hdl : (1 : Nat) ≤ (List.drop (L.length - mx) L).length := by
        rw [List.length_drop]; omega
      have hdr : L.length + 1 - mx ≤ L.length := by omega
      have hidx : L.length - mx + 1 = L.length + 1 - mx := by omega
      rw [← List.drop_one, List.drop_append_of_le_length hdl, List.drop_drop,
        List.drop_append_of_le_length hdr, hidx]
  · rw [if_neg hc]
    rw [hlen] at hc
    have hLm : L.length < mx := by omega
    unfold lastN
    simp only [List.length_append, List.length_cons, List.length_nil, Nat.zero_add]
    have h0 : L.length - mx = 0 := by omega
    have h1 : L.length + 1 - mx = 0 := by omega
    rw [h0, h1, List.drop_zero, List.drop_zero]

theorem map_pushFIFO (f : NetworkRequest → NetworkRequest) (mx : Nat)
    (buf : List NetworkRequest) (r : NetworkRequest) :
    (pushFIFO mx buf r).map f = pushFIFO mx (buf.map f) (f r) := by
  simp only [pushFIFO]
  have hl : (List.map f buf ++ [f r]).length = (buf ++ [r]).length := by simp
  rw [hl]
  split
  · rw [List.map_tail, List.map_append, List.map_cons, List.map_nil]
  · rw [List.map_append, List.map_cons, List.map_nil]

theorem updateFirst_map_eq {α β : Type} (p : α → Bool) (f : α → α) (g : α → β)
    (h : ∀ x, g (f x) = g x) : ∀ l : List α, (updateFirst p f l).map g = l.map g := by
  intro l
  induction l with
  | nil => rfl
  | cons x xs ih =>
    simp only [updateFirst]
    split <;> simp [h, ih]

theorem stripBody_setRespBody (b : JStr) (r : NetworkRequest) :
    stripBody (setRespBody b r) = stripBody r := by
  simp only [stripBody, setRespBody, Option.map_map]
  cases hr : r.response <;> simp [hr, Function.comp]

theorem attachResponseBody_map_strip (buf : List NetworkRequest) (b : JStr) :
    (attachResponseBody buf b).map stripBody = buf.map stripBody := by
  unfold attachResponseBody
  rw [List.map_reverse, updateFirst_map_eq _ _ _ (stripBody_setRespBody b),
    ← List.map_reverse, List.reverse_reverse]

theorem handleMessage_pending_some (rx : JStr → Option (JStr → Bool)) (f : FilterConfig)
    (mx : Nat) (s : MonState) (e : NetEvent) (p : List (JStr × NetworkRequest))
    (hp : s.pending = some p) : ∃ q, (handleMessage rx f mx s e).pending = some q := by
  cases e with
  | cmdResponse hasError => exact ⟨p, hp⟩
  | malformed => exact ⟨p, hp⟩
  | bodyResult b =>
    refine ⟨p, ?_⟩
    simp [handleMessage, hp]
  | requestWillBeSent rid url method hdrs postData ts =>
    simp only [handleMessage, hp]
    split
    · exact ⟨p, hp⟩
    · exact ⟨_, rfl⟩
  | responseReceived rid status hdrs mimeType ts =>
    simp only [handleMessage, hp]
    rcases hmg : mapGet p rid with _ | req
    · exact ⟨p, hp⟩
    · exact ⟨_, rfl⟩

theorem handleMessage_buffer_strip (rx : JStr → Option (JStr → Bool)) (f : FilterConfig)
    (mx : Nat) (s : MonState) (e : NetEvent) (p : List (JStr × NetworkRequest))
    (hp : s.pending = some p) (L : List NetworkRequest)
    (hb : s.buffer.map stripBody = lastN mx L) :
    (handleMessage rx f mx s e).buffer.map stripBody
      = lastN mx (L ++ (promotedBy rx f s e).map stripBody) := by
  cases e with
  | cmdResponse hasError => simp [handleMessage, promotedBy, hb]
  | malformed => simp [handleMessage, promotedBy, hb]
  | bodyResult b => simp [handleMessage, promotedBy, attachResponseBody_map_strip, hb]
  | requestWillBeSent rid url method hdrs postData ts =>
    simp only [handleMessage, promotedBy, hp]
    split
    · simp [hb]
    · simp [hb]
  | responseReceived rid status hdrs mimeType ts =>
    simp only [handleMessage, promotedBy, hp]
    rcases hmg : mapGet p rid with _ | req
    · simp [hb]
    · by_cases hinc : shouldIncludeRequest mimeType f
      · simp only [hinc, if_true]
        rw [map_pushFIFO, hb, pushFIFO_lastN]
        simp
      · simp [hinc, hb]

theorem runEvents_strip (rx : JStr → Option (JStr → Bool)) (f : FilterConfig) (mx : Nat) :
    ∀ (es : List NetEvent) (s : MonState) (p : List (JStr × NetworkRequest))
      (L : List NetworkRequest),
      s.pending = some p → s.buffer.map stripBody = lastN mx L →
      (runEvents rx f mx s es).buffer.map stripBody
        = lastN mx (L ++ (runPromoted rx f mx s es).map stripBody) := by
  intro es
  induction es with
  | nil =>
    intro s p L hp hb
    simpa [runEvents, runPromoted] using hb
  | cons e es ih =>
    intro s p L hp hb
    obtain ⟨q, hq⟩ := handleMessage_pending_some rx f mx s e p hp
    have hstep := handleMessage_buffer_strip rx f mx s e p hp L hb
    have hrest := ih (handleMessage rx f mx s e) q
      (L ++ (promotedBy rx f s e).map stripBody) hq hstep
    simpa [runEvents, runPromoted, List.map_append, List.append_assoc] using hrest

/-- **C1.** For every sequence of ingested network events and every
configured capacity `maxBufferSize`, after each event is processed the
Buffer holds at most `maxBufferSize` records, and the buffer (up to the
later in-place response-body attachment, erased by `stripBody`) is
exactly the suffix of the most recent `maxBufferSize` insertions, in
insertion order — the oldest record is evicted first when an insertion
would exceed the capacity. -/
theorem buffer_bound_fifo_retention (rx : JStr → Option (JStr → Bool)) (f : FilterConfig)
    (mx : Nat) (es : List NetEvent) :
    (∀ n : Nat, ((runEvents rx f mx monInit (es.take n)).buffer).length ≤ mx)
    ∧ (runEvents rx f mx monInit es).buffer.map stripBody
        = lastN mx ((runPromoted rx f mx monInit es).map stripBody) := by
  have hbase : monInit.buffer.map stripBody = lastN mx ([] : List NetworkRequest) := by
    simp [monInit, lastN]
  constructor
  · intro n
    have h := runEvents_strip rx f mx (es.take n) monInit [] [] rfl hbase
    have hlen := congrArg List.length h
    rw [List.length_map] at hlen
    rw [hlen]
    exact length_lastN mx _
  · have h := runEvents_strip rx f mx es monInit [] [] rfl hbase
    simpa using h

/-- **C4.** Processing a response-observed event whose correlation id is
not in the pending map is a no-op; when the id is pending, the response
fields are merged into the record, the id is deleted from the pending map
in every case, and the merged record is pushed into the buffer (with FIFO
eviction) iff the late content-type filter passes. -/
theorem completeResponse_cases (rx : JStr → Option (JStr → Bool)) (f : FilterConfig)
    (mx : Nat) (s : MonState) (p : List (JStr × NetworkRequest)) (rid : JStr)
    (status : Nat) (hdrs : Headers) (mimeType : Option JStr) (ts : Nat)
    (hp : s.pending = some p) :
    (mapGet p rid = none →
      handleMessage rx f mx s (.responseReceived rid status hdrs mimeType ts) = s)
    ∧ (∀ req, mapGet p rid = some req →
        handleMessage rx f mx s (.responseReceived rid status hdrs mimeType ts)
          = { s with
              pending := some (mapDelete p rid),
              buffer := if shouldIncludeRequest mimeType f
                        then pushFIFO mx s.buffer
                          { req with
                            response := some { status := status, headers := hdrs,
                                               mimeType := mimeType, body := none },
                            responseTimestamp := some ts }
                        else s.buffer }) := by
  constructor
  · intro hnone
    simp [handleMessage, hp, hnone]
  · intro req hsome
    simp [handleMessage, hp, hsome]

theorem completeResponse_cases_witness :
    (handleMessage rxNone cfgJson 20 sW
        (.responseReceived (jstr "b") 200 [] (some (jstr "application/json")) 2) = sW)
    ∧ (handleMessage rxNone cfgJson 20 sW
        (.responseReceived (jstr "a") 200 [] (some (jstr "application/json")) 2)
        = { sW with
            pending := some (mapDelete [(jstr "a", recW)] (jstr "a")),
            buffer := if shouldIncludeRequest (some (jstr "application/json")) cfgJson
                      then pushFIFO 20 sW.buffer
                        { recW with
                          response := some { status := 200, headers := [],
                                             mimeType := some (jstr "application/json"),
                                             body := none },
                          responseTimestamp := some 2 }
                      else sW.buffer }) := by
  constructor
  · exact (completeResponse_cases rxNone cfgJson 20 sW [(jstr "a", recW)] (jstr "b") 200 []
      (some (jstr "application/json")) 2 rfl).1 (by decide)
  · exact (completeResponse_cases rxNone cfgJson 20 sW [(jstr "a", recW)] (jstr "a") 200 []
      (some (jstr "application/json")) 2 rfl).2 recW (by decide)

/-- **C3 (code bug).** In the monitor as actually wired (`startMonitor` in
src/index.ts calls `startNetworkMonitoring` without a pending map, so the
callback runs in its fallback mode), an early-accepted request whose
response will fail the late content-type filter sits in the buffer — the
very buffer `get_recent_requests` reads — between its request-observed
and response-observed events, and is removed only when the response
arrives. -/
theorem fallback_transient_buffer :
    ((runEvents rxNone cfgJson 20 { pending := none, buffer := [], nextUuid := 0 }
        [.requestWillBeSent (jstr "r1") (jstr "https://x.com/page") (jstr "GET") [] none 1]
      ).buffer.map NetworkRequest.id = [jstr "r1"])
    ∧ (runEvents rxNone cfgJson 20 { pending := none, buffer := [], nextUuid := 0 }
        [.requestWillBeSent (jstr "r1") (jstr "https://x.com/page") (jstr "GET") [] none 1,
         .responseReceived (jstr "r1") 200 [] (some (jstr "text/html")) 2]).buffer = [] := by
  decide

/-- **C2 (counterexample).** At the concrete input `mimeType = ""` with
filter `contentTypes = [""]`, `shouldIncludeRequest` rejects although the
mime type is present and contains the configured (empty) content-type
string as a substring, refuting the claimed characterisation
(`passesLateSpec`). -/
theorem shouldIncludeRequest_claim_cex :
    shouldIncludeRequest (some ([] : JStr)) ⟨.arr [([] : JStr)], .all, none⟩
      ≠ passesLateSpec (some ([] : JStr)) (.arr [([] : JStr)]) := by
  decide

/-- **C2 (amended).** `shouldIncludeRequest` agrees with the claimed
characterisation once an empty `mimeType` string is treated like an
absent one: `'all'` accepts everything, an empty filter array rejects
everything, and otherwise acceptance holds iff the mime type is present,
non-empty, and contains some configured content type as a substring. -/
theorem shouldIncludeRequest_amended (mimeType : Option JStr) (f : FilterConfig) :
    shouldIncludeRequest mimeType f = passesLateAmended mimeType f.contentTypes := by
  rcases hct : f.contentTypes with _ | l
  · simp [shouldIncludeRequest, passesLateAmended, hct]
  · cases mimeType with
    | none => simp [shouldIncludeRequest, passesLateAmended, hct, jsTruthyStr]
    | some m =>
      by_cases hl : l.isEmpty <;> by_cases hm : m.isEmpty <;>
        simp [shouldIncludeRequest, passesLateAmended, hct, jsTruthyStr, hl, hm]

/-- **C5.** The early filter rejects when a non-empty method list does not
contain the request method; rejects when the URL-pattern filter is a
pattern array none of whose patterns matches (a pattern that fails to
compile contributes no match, with no fatal error — totality of the Lean
function); and accepts when the method filter is absent and the pattern
filter is `'all'`. -/
theorem earlyFilter_spec (rx : JStr → Option (JStr → Bool)) (url method : JStr)
    (f : FilterConfig) :
    (∀ ms, f.methods = some ms → ms ≠ [] → ms.contains method = false →
      shouldIncludeRequestByUrlAndMethod rx url method f = false)
    ∧ (∀ pats, f.urlIncludePatterns = .arr pats →
        (∀ q, q ∈ pats → (match rx q with | some test => test url | none => false) = false) →
        shouldIncludeRequestByUrlAndMethod rx url method f = false)
    ∧ (f.methods = none → f.urlIncludePatterns = .all →
        shouldIncludeRequestByUrlAndMethod rx url method f = true) := by
  refine ⟨?_, ?_, ?_⟩
  · intro ms hms hne hnc
    rcases ms with _ | ⟨m0, ms'⟩
    · exact absurd rfl hne
    · simp only [shouldIncludeRequestByUrlAndMethod, hms]
      split
      · rfl
      · simpa using hnc
  · intro pats hpats hall
    have hany : (pats.any fun p2 => match rx p2 with | some test => test url | none => false)
        = false := by
      simp only [List.any_eq_false]
      intro x hx
      simp [hall x hx]
    simp [shouldIncludeRequestByUrlAndMethod, hpats, hany]
  · intro hms hup
    simp [shouldIncludeRequestByUrlAndMethod, hms, hup]

theorem earlyFilter_spec_witness :
    (shouldIncludeRequestByUrlAndMethod rxNone (jstr "https://x.com/api/u") (jstr "GET")
      ⟨.all, .all, some [jstr "POST"]⟩ = false)
    ∧ (shouldIncludeRequestByUrlAndMethod rxNone (jstr "https://x.com/static/app.js")
      (jstr "GET") ⟨.all, .arr [jstr "api/"], none⟩ = false)
    ∧ (shouldIncludeRequestByUrlAndMethod rxNone (jstr "https://x.com/a") (jstr "GET")
      ⟨.all, .all, none⟩ = true) := by
  refine ⟨?_, ?_, ?_⟩
  · exact (earlyFilter_spec rxNone (jstr "https://x.com/api/u") (jstr "GET")
      ⟨.all, .all, some [jstr "POST"]⟩).1 [jstr "POST"] rfl (by decide) (by decide)
  · exact (earlyFilter_spec rxNone (jstr "https://x.com/static/app.js") (jstr "GET")
      ⟨.all, .arr [jstr "api/"], none⟩).2.1 [jstr "api/"] rfl (fun q hq => rfl)
  · exact (earlyFilter_spec rxNone (jstr "https://x.com/a") (jstr "GET")
      ⟨.all, .all, none⟩).2.2 rfl rfl

theorem updateFirst_of_all_neg {α : Type} (p : α → Bool) (f : α → α) :
    ∀ l : List α, (∀ x, x ∈ l → p x = false) → updateFirst p f l = l := by
  intro l
  induction l with
  | nil => intro _; rfl
  | cons x xs ih =>
    intro h
    simp only [updateFirst, h x (List.mem_cons_self x xs), if_neg]
    rw [ih (fun y hy => h y (List.mem_cons_of_mem x hy))]
    simp

theorem updateFirst_append_neg {α : Type} (p : α → Bool) (f : α → α) (c : List α) :
    ∀ a : List α, (∀ x, x ∈ a → p x = false) →
      updateFirst p f (a ++ c) = a ++ updateFirst p f c := by
  intro a
  induction a with
  | nil => intro _; rfl
  | cons x xs ih =>
    intro h
    have hx : p x = false := h x (List.mem_cons_self x xs)
    have hrest := ih (fun y hy => h y (List.mem_cons_of_mem x hy))
    show (if p x = true then f x :: (xs ++ c) else x :: updateFirst p f (xs ++ c))
        = x :: (xs ++ updateFirst p f c)
    rw [hx, if_neg (by simp), hrest]

theorem updateFirst_mem {α : Type} (p : α → Bool) (f : α → α) :
    ∀ (l : List α) (x : α), x ∈ updateFirst p f l →
      x ∈ l ∨ ∃ y, y ∈ l ∧ p y = true ∧ x = f y := by
  intro l
  induction l with
  | nil => intro x hx; cases hx
  | cons z zs ih =>
    intro x hx
    simp only [updateFirst] at hx
    by_cases hz : p z
    · rw [if_pos hz] at hx
      rcases List.mem_cons.mp hx with h | h
      · exact Or.inr ⟨z, List.mem_cons_self z zs, hz, h⟩
      · exact Or.inl (List.mem_cons_of_mem z h)
    · rw [if_neg hz] at hx
      rcases List.mem_cons.mp hx with h | h
      · exact Or.inl (h ▸ List.mem_cons_self z zs)
      · rcases ih x h with h2 | ⟨y, hy, hpy, hxy⟩
        · exact Or.inl (List.mem_cons_of_mem z h2)
        · exact Or.inr ⟨y, List.mem_cons_of_mem z hy, hpy, hxy⟩

/-- **C6.** A body-fetched result is attached to exactly the most recently
inserted buffer record that has a response but no (truthy) response body
yet; when no such record exists nothing is modified; and a record without
a response never receives a body (any record of the updated buffer whose
response is absent was already in the buffer). -/
theorem attachBody_spec (buf : List NetworkRequest) (b : JStr) :
    ((∀ r, r ∈ buf → needsBody r = false) → attachResponseBody buf b = buf)
    ∧ (∀ l₁ r l₂, buf = l₁ ++ r :: l₂ → needsBody r = true →
        (∀ x, x ∈ l₂ → needsBody x = false) →
        attachResponseBody buf b = l₁ ++ setRespBody b r :: l₂)
    ∧ (∀ r, r ∈ attachResponseBody buf b → r.response = none → r ∈ buf) := by
  refine ⟨?_, ?_, ?_⟩
  · intro h
    unfold attachResponseBody
    rw [updateFirst_of_all_neg _ _ _ (fun x hx => h x (List.mem_reverse.mp hx)),
      List.reverse_reverse]
  · intro l₁ r l₂ hbuf hr hneg
    subst hbuf
    unfold attachResponseBody
    have h1 : (l₁ ++ r :: l₂).reverse = l₂.reverse ++ r :: l₁.reverse := by
      simp
    rw [h1, updateFirst_append_neg _ _ _ _ (fun x hx => hneg x (List.mem_reverse.mp hx))]
    have h2 : updateFirst needsBody (setRespBody b) (r :: l₁.reverse)
        = setRespBody b r :: l₁.reverse := by
      simp [updateFirst, hr]
    rw [h2]
    simp
  · intro r hrmem hnone
    unfold attachResponseBody at hrmem
    rw [List.mem_reverse] at hrmem
    rcases updateFirst_mem _ _ _ _ hrmem with h | ⟨y, hy, hpy, hxy⟩
    · exact List.mem_reverse.mp h
    · exfalso
      subst hxy
      cases hyresp : y.response with
      | none => simp [needsBody, hyresp] at hpy
      | some resp => simp [setRespBody, hyresp] at hnone

theorem attachBody_spec_witness :
    attachResponseBody [recDone, recWaiting] (jstr "ok")
      = [recDone, setRespBody (jstr "ok") recWaiting] := by
  have h := (attachBody_spec [recDone, recWaiting] (jstr "ok")).2.1 [recDone] recWaiting []
    rfl (by decide) (fun x hx => absurd hx (List.not_mem_nil x))
  simpa using h

/-- **C7 (counterexample).** On a monitoring state holding three buffered
records, `updateFilter` clears the buffer (three records removed) and
succeeds, yet the serialized `MonitorStatus` result carries neither a
`removedCount` nor a `remainingCount` key, refuting the claimed result
shape. -/
theorem updateFilter_result_keys_cex :
    ((updateFilter
        { isMonitoring := true, hasWebSocket := true,
          networkBuffer := [recDone, recWaiting, recW],
          cdpWebSocketUrl := some (jstr "ws://localhost"), cdpPort := 9222 }
        ⟨none, none, none⟩).1.networkBuffer = [])
    ∧ ([recDone, recWaiting, recW].length = 3)
    ∧ ((updateFilter
        { isMonitoring := true, hasWebSocket := true,
          networkBuffer := [recDone, recWaiting, recW],
          cdpWebSocketUrl := some (jstr "ws://localhost"), cdpPort := 9222 }
        ⟨none, none, none⟩).2
      = .ok { status := jstr "updated", buffer_size := 20,
              filter := parseFilterArgs ⟨none, none, none⟩,
              cdp_endpoint := some (jstr "ws://localhost"), cdp_port := 9222 })
    ∧ ¬("removedCount" ∈ monitorStatusKeys)
    ∧ ¬("remainingCount" ∈ monitorStatusKeys) := by
  refine ⟨rfl, rfl, rfl, by decide, by decide⟩

/-- **C7 (amended).** `updateFilter` called while not monitoring fails
with the not-monitoring error and leaves the server state unchanged;
called while monitoring it clears the buffer and returns a status result
with status `'updated'`, the hard-coded buffer size 20, and the parsed
new filter (no removed/remaining counts are reported). -/
theorem updateFilter_behavior (st : ServerState) (args : FilterArgs) :
    (st.isMonitoring = false ∨ st.hasWebSocket = false →
      updateFilter st args
        = (st, .error (jstr "Network monitoring is not active. Use start_monitor first.")))
    ∧ (st.isMonitoring = true → st.hasWebSocket = true →
      updateFilter st args
        = ({ st with networkBuffer := [] },
           .ok { status := jstr "updated", buffer_size := 20, filter := parseFilterArgs args,
                 cdp_endpoint := st.cdpWebSocketUrl, cdp_port := st.cdpPort })) := by
  constructor
  · intro h
    rcases h with h | h <;> simp [updateFilter, h]
  · intro h1 h2
    simp [updateFilter, h1, h2]

theorem updateFilter_behavior_witness :
    (updateFilter
        { isMonitoring := false, hasWebSocket := false, networkBuffer := [recW],
          cdpWebSocketUrl := none, cdpPort := 9222 } ⟨none, none, none⟩
      = ({ isMonitoring := false, hasWebSocket := false, networkBuffer := [recW],
           cdpWebSocketUrl := none, cdpPort := 9222 },
         .error (jstr "Network monitoring is not active. Use start_monitor first.")))
    ∧ (updateFilter
        { isMonitoring := true, hasWebSocket := true, networkBuffer := [recW],
          cdpWebSocketUrl := some (jstr "ws://localhost"), cdpPort := 9222 }
        ⟨some .all, none, none⟩
      = ({ isMonitoring := true, hasWebSocket := true, networkBuffer := [],
           cdpWebSocketUrl := some (jstr "ws://localhost"), cdpPort := 9222 },
         .ok { status := jstr "updated", buffer_size := 20,
               filter := parseFilterArgs ⟨some .all, none, none⟩,
               cdp_endpoint := some (jstr "ws://localhost"), cdp_port := 9222 })) := by
  constructor
  · exact (updateFilter_behavior
      { isMonitoring := false, hasWebSocket := false, networkBuffer := [recW],
        cdpWebSocketUrl := none, cdpPort := 9222 } ⟨none, none, none⟩).1 (Or.inl rfl)
  · exact (updateFilter_behavior
      { isMonitoring := true, hasWebSocket := true, networkBuffer := [recW],
        cdpWebSocketUrl := some (jstr "ws://localhost"), cdpPort := 9222 }
      ⟨some .all, none, none⟩).2 rfl rfl

theorem truncOptBody_bigBody :
    truncOptBody (some bigBody) = some (bigBody.take MAX_BODY_SIZE ++ truncMarker 70000) := by
  have hlen : bigBody.length = 70000 := by
    unfold bigBody
    exact List.length_replicate 70000 'a'
  have hne : bigBody.isEmpty = false := by
    rw [Bool.eq_false_iff]
    intro hh
    rw [List.isEmpty_iff] at hh
    rw [hh] at hlen
    simp at hlen
  have hcond : (jsTruthyStr (some bigBody) && decide (MAX_BODY_SIZE < bigBody.length))
      = true := by
    simp [jsTruthyStr, hne, hlen]
    decide
  simp only [truncOptBody]
  rw [if_pos hcond, hlen]

/-- **C8 (counterexample).** With a 70000-character response body,
`getRequestDetail` does truncate at 50 KB and report 70000, but the
appended marker is `"\n... [truncated from 70000 bytes]"`, not the
claimed literal `"...[truncated from 70000 bytes]"`. -/
theorem getDetail_marker_cex :
    ((getRequestDetail [bigRec] 7 false).2.map
        (fun d => d.response.map (fun resp => resp.body)))
      ≠ some (some (some (bigBody.take MAX_BODY_SIZE ++ specMarker 70000))) := by
  have hfind : [bigRec].find? (fun r => r.uuid == 7) = some bigRec :=
    List.find?_cons_of_pos _ rfl
  intro h
  simp only [getRequestDetail, hfind, Option.map_some'] at h
  rw [show bigRec.response
      = some { status := 200, headers := [], mimeType := some (jstr "application/json"),
               body := some bigBody } from rfl] at h
  simp only [Option.map_some', Option.some.injEq] at h
  rw [truncOptBody_bigBody] at h
  simp only [Option.some.injEq] at h
  exact absurd (List.append_cancel_left h) (by decide)

/-- **C8 (amended).** For every stored record found by uuid,
`getRequestDetail` returns its request and response bodies passed through
the 50 KB cap: a body of at most `50*1024` characters is returned
unmodified, and a longer body of length `N` is returned as its first
`50*1024` characters followed by the marker
`"\n... [truncated from <N> bytes]"` reporting `N`. -/
theorem getDetail_truncation (buf : List NetworkRequest) (u : Nat) (ih2 : Bool)
    (r : NetworkRequest) (hfind : buf.find? (fun x => x.uuid == u) = some r) :
    ((getRequestDetail buf u ih2).2.map (fun d => d.body) = some (truncOptBody r.body))
    ∧ ((getRequestDetail buf u ih2).2.map (fun d => d.response.map (fun resp => resp.body))
        = some (r.response.map (fun resp => truncOptBody resp.body)))
    ∧ (∀ s : JStr, (s.length ≤ MAX_BODY_SIZE → truncOptBody (some s) = some s)
        ∧ (MAX_BODY_SIZE < s.length →
            truncOptBody (some s) = some (s.take MAX_BODY_SIZE ++ truncMarker s.length))) := by
  refine ⟨?_, ?_, ?_⟩
  · simp [getRequestDetail, hfind]
  · simp only [getRequestDetail, hfind]
    cases hresp : r.response <;> simp [hresp]
  · intro s
    constructor
    · intro hle
      have hd : decide (MAX_BODY_SIZE < s.length) = false :=
        decide_eq_false (Nat.not_lt.mpr hle)
      have hc : (jsTruthyStr (some s) && decide (MAX_BODY_SIZE < s.length)) = false := by
        simp [hd]
      simp only [truncOptBody]
      rw [if_neg (by simp [hc])]
    · intro hlt
      have hne2 : s.isEmpty = false := by
        rw [Bool.eq_false_iff]
        intro hh
        rw [List.isEmpty_iff] at hh
        rw [hh] at hlt
        simp [MAX_BODY_SIZE] at hlt
      have hc : (jsTruthyStr (some s) && decide (MAX_BODY_SIZE < s.length)) = true := by
        simp [jsTruthyStr, hne2, hlt]
      simp only [truncOptBody]
      rw [if_pos hc]

theorem getDetail_truncation_witness :
    ((getRequestDetail [recDone] 2 false).2.map (fun d => d.body)
      = some (truncOptBody recDone.body))
    ∧ (truncOptBody (some (jstr "abc")) = some (jstr "abc")) := by
  constructor
  · exact (getDetail_truncation [recDone] 2 false recDone (by decide)).1
  · exact ((getDetail_truncation [recDone] 2 false recDone (by decide)).2.2 (jstr "abc")).1
      (by decide)

/-- **C9 (code bug).** `getRequestDetail` with `include_headers = true` on
a record whose response body exceeds 50 KB writes the truncated body back
into the stored record (`requestCopy.response` aliases the buffered
record's response object in that branch), so the buffer is not identical
before and after the read. -/
theorem getDetail_mutates_buffer : (getRequestDetail [bigRec] 7 true).1 ≠ [bigRec] := by
  have hfind : [bigRec].find? (fun r => r.uuid == 7) = some bigRec :=
    List.find?_cons_of_pos _ rfl
  have hpred : (bigRec.uuid == 7) = true := rfl
  have hmark : (truncMarker 70000).length = 33 := by decide
  have hlenb : bigBody.length = 70000 := by
    unfold bigBody
    exact List.length_replicate 70000 'a'
  intro h
  have h1 : (getRequestDetail [bigRec] 7 true).1 = [mutateAliasedResponse bigRec] := by
    simp [getRequestDetail, hfind, updateFirst, hpred]
  rw [h1] at h
  have h2 : mutateAliasedResponse bigRec = bigRec := by
    simpa using h
  have h3 := congrArg (fun rr : NetworkRequest => rr.response) h2
  simp only [mutateAliasedResponse] at h3
  rw [show bigRec.response
      = some { status := 200, headers := [], mimeType := some (jstr "application/json"),
               body := some bigBody } from rfl] at h3
  simp only [Option.map_some', Option.some.injEq] at h3
  have h4 : truncOptBody (some bigBody) = some bigBody := by
    have := congrArg NetworkResponse.body h3
    simpa using this
  rw [truncOptBody_bigBody] at h4
  have h5 : (bigBody.take MAX_BODY_SIZE ++ truncMarker 70000).length = bigBody.length := by
    rw [Option.some.injEq] at h4
    rw [h4]
  rw [List.length_append, List.length_take, hlenb, hmark] at h5
  simp [MAX_BODY_SIZE] at h5

/-- **C10 (code bug).** `StartMonitorSchema` caps `max_buffer_size` at 50
(51 is rejected, 50 accepted), but an omitted `max_buffer_size` parses to
30, not the documented default 20. -/
theorem startSchema_default_and_cap :
    (parseStartMonitor ⟨none, none, none⟩
      = .ok { max_buffer_size := 30, cdp_port := 9222,
              filter := { contentTypes := defaultContentTypes, urlIncludePatterns := .all,
                          methods := none } })
    ∧ (parseStartMonitor ⟨some 51, none, none⟩
      = .error (jstr "Number must be less than or equal to 50"))
    ∧ (parseStartMonitor ⟨some 50, none, none⟩
      = .ok { max_buffer_size := 50, cdp_port := 9222,
              filter := { contentTypes := defaultContentTypes, urlIncludePatterns := .all,
                          methods := none } }) := by
  refine ⟨rfl, rfl, rfl⟩
